import Mathlib

/-!
Verification development for the tgpin repository: a shallow embedding of its
reconciliation-and-alert core (src/tgpin.py, src/db/db.py, src/config/config.py,
src/emails/emails.py) together with theorems settling the specification claims.

Modelling conventions:
* The single SQLite table `pinned_messages` is a `List Row` held in rowid order
  (the order a full-table scan without ORDER BY visits rows in).
* `date` values (timezone-normalized datetimes, compared by SQLite as strings of
  a fixed format, hence order-isomorphically to instants) are modelled as `Int`.
* Blobs are modelled as `List Nat` of bytes.
* `src/tgpin.py` invokes the database layer on the single `pinned_messages`
  table (some calls name a method/arity from an adjacent revision of
  `src/db/db.py`; both revisions' docstrings fix the table to `pinned_messages`,
  so the embedding specializes `table_name` to that one table).
-/

namespace Tgpin

/-- Binary attachment blob, as raw bytes. -/
abbrev Blob := List Nat

/-- One element of the `pin_data` list built by `process_pinned_messages` in
src/tgpin.py: the tuple `(m.id, m.text, m.date converted to TZ, image bytes)`. -/
structure PinData where
  mid : Int
  text : String
  date : Int
  photo : Option Blob
deriving DecidableEq, Repr

/-- One row of the `pinned_messages` table created by `Database.create_table` in
src/db/db.py: `(id INTEGER PRIMARY KEY, message_id INTEGER UNIQUE, message TEXT,
date DATETIME, photo BLOB)`. The `seq` field is the `id` column (the SQLite
rowid; the schema has no AUTOINCREMENT keyword). -/
structure Row where
  seq : Nat
  message_id : Int
  message : String
  date : Int
  photo : Option Blob
deriving DecidableEq, Repr

/-- The `message_id` column of every row, in rowid order. -/
def ids (s : List Row) : List Int := s.map (·.message_id)

/-- Largest rowid currently in the table (0 when the table is empty). -/
def maxSeq (s : List Row) : Nat := (s.map (·.seq)).foldr max 0

/-- Rowid SQLite assigns to the next inserted row for a table declared
`id INTEGER PRIMARY KEY` without AUTOINCREMENT: one more than the largest
existing rowid, and 1 on an empty table. Nothing prevents a value from being
assigned again after the row holding the current maximum is deleted. -/
def nextRowid (s : List Row) : Nat := maxSeq s + 1

/-- Whether a row with the given `message_id` already exists (the UNIQUE
constraint on `message_id` that makes INSERT OR IGNORE skip a duplicate). -/
def hasId (s : List Row) (i : Int) : Bool := s.any (fun r => r.message_id == i)

/-- The row a successful insert of `v` appends, with its store-assigned rowid. -/
def mkRow (s : List Row) (v : PinData) : Row :=
  ⟨nextRowid s, v.mid, v.text, v.date, v.photo⟩

/-- Effect of one `INSERT OR IGNORE INTO pinned_messages (message_id, message,
date, photo) VALUES (?, ?, ?, ?)`: a no-op when the `message_id` is present,
otherwise an append with a fresh rowid. -/
def insertOne (s : List Row) (v : PinData) : List Row :=
  if hasId s v.mid then s else s ++ [mkRow s v]

/-- Effect of `cursor.executemany` over the whole batch, row by row in order
(src/db/db.py, `Database.insert_or_ignore`). -/
def insertRows (s : List Row) (vs : List PinData) : List Row :=
  vs.foldl insertOne s

/-- `Database.get_last_update` (src/db/db.py): `SELECT MAX(date) FROM
pinned_messages`, which is NULL on an empty table. -/
def get_last_update (s : List Row) : Option Int :=
  s.foldl (fun a r => some (match a with | none => r.date | some m => max m r.date)) none

/-- `Database.insert_or_ignore` (src/db/db.py): reads `get_last_update` FIRST,
then executes the INSERT OR IGNORE batch, and returns the previously read
last-update value when `get_last_update` was requested (None otherwise). -/
def insert_or_ignore (s : List Row) (values : List PinData) (getLastUpdate : Bool) :
    List Row × Option Int :=
  (insertRows s values, if getLastUpdate then get_last_update s else none)

/-- `Database.remove_messages` (src/db/db.py): `DELETE FROM pinned_messages
WHERE message_id NOT IN (ids)`. SQLite evaluates `x NOT IN ()` as true, so an
empty id list deletes every row; the filter keeps exactly the listed ids. -/
def remove_messages (s : List Row) (messageIds : List Int) : List Row :=
  s.filter (fun r => decide (r.message_id ∈ messageIds))

/-- `Database.get_count` (src/db/db.py): `SELECT COUNT(*) FROM pinned_messages`. -/
def get_count (s : List Row) : Nat := s.length

/-- `Database.get_recent_messages_by_date` (src/db/db.py): `SELECT * FROM
pinned_messages WHERE date > ?`. The query has NO ORDER BY clause, so rows come
back in table-scan (rowid) order. The comparison is strict. -/
def get_recent_messages_by_date (s : List Row) (d : Int) : List Row :=
  s.filter (fun r => decide (d < r.date))

/-- `Database.get_random_messages` (src/db/db.py): `SELECT * FROM
pinned_messages ORDER BY RANDOM() LIMIT count`. The randomness is modelled by
taking the shuffled table (the permutation ORDER BY RANDOM() produced) as an
argument. SQLite treats a negative LIMIT as "no limit", so a negative count
returns the whole table; otherwise at most `count` rows are returned. -/
def get_random_messages (shuffled : List Row) (count : Int) : List Row :=
  if count < 0 then shuffled else shuffled.take count.toNat

/-- Modelled from the spec: the prune method `remove_unpinned_messages` that
`update_database` in src/tgpin.py calls is absent from src/db/db.py (which has
`remove_messages` with the same DELETE, from an adjacent revision). The spec's
`prune(keep_ids)` deletes every row whose remote_id is not in `keep_ids`, which
is exactly `remove_messages` on the `pinned_messages` table. -/
def remove_unpinned_messages (s : List Row) (messageIds : List Int) : List Row :=
  remove_messages s messageIds

/-- Sorting step of `process_pinned_messages` (src/tgpin.py):
`sorted(pin_data, key=lambda x: x[0])`, a stable sort by message id ascending. -/
def sortPinData (l : List PinData) : List PinData :=
  List.insertionSort (fun a b => a.mid ≤ b.mid) l

/-- `update_database` (src/tgpin.py): prune the rows whose id is no longer in
the snapshot, then insert-or-ignore the snapshot, returning the last-update
value that `insert_or_ignore` read (after the prune, before the insertion). -/
def update_database (s : List Row) (pinData : List PinData)
    (alertNewGetByLastUpdate : Bool) : List Row × Option Int :=
  let messagesIds := pinData.map (·.mid)
  let s1 := remove_unpinned_messages s messagesIds
  insert_or_ignore s1 pinData alertNewGetByLastUpdate

/-- `get_recent_messages` (src/tgpin.py): the time-window branch queries since
`time_window`, the last-update branch queries since the (truthy) watermark, and
otherwise the empty list is returned together with the time-window start. -/
def get_recent_messages (s : List Row) (alertNewGetByTimeWindow : Bool)
    (alertNewGetByLastUpdate : Bool) (lastUpdate : Option Int) (timeWindow : Int) :
    List Row × Int :=
  if alertNewGetByTimeWindow then
    (get_recent_messages_by_date s timeWindow, timeWindow)
  else if alertNewGetByLastUpdate && lastUpdate.isSome then
    (get_recent_messages_by_date s (lastUpdate.getD 0), timeWindow)
  else
    ([], timeWindow)

/-- `process_alerts` (src/tgpin.py): when the result set is non-empty it renders
and sends the email (send_email in src/emails/emails.py re-raises any SMTP
failure); an empty result set sends nothing. `emailOk` is the outcome of the
SMTP interaction; `Except.ok b` reports whether an email was sent, and
`Except.error` a raised exception. -/
def process_alerts_run (msgs : List Row) (emailOk : Bool) : Except String Bool :=
  if 0 < msgs.length then
    (if emailOk then Except.ok true else Except.error "smtp")
  else Except.ok false

/-- Dispatch tail of `main` (src/tgpin.py): `if ALERT_NEW: process_alerts(...)`
then `if ALERT_REMINDER: process_alerts(...)`, sequentially with no try/except,
so an exception raised by the first enabled alert propagates and the second
block never runs. Returns the list of alert types actually emailed, in order,
and whether an exception escaped `main`. -/
def mainDispatchSends (alertNew alertReminder : Bool) (recent reminder : List Row)
    (okNew okReminder : Bool) : List String × Bool :=
  if alertNew then
    match process_alerts_run recent okNew with
    | Except.error _ => ([], true)
    | Except.ok sn =>
      if alertReminder then
        match process_alerts_run reminder okReminder with
        | Except.error _ => ((if sn then ["new"] else []), true)
        | Except.ok sr =>
            ((if sn then ["new"] else []) ++ (if sr then ["reminder"] else []), false)
      else ((if sn then ["new"] else []), false)
  else
    if alertReminder then
      match process_alerts_run reminder okReminder with
      | Except.error _ => ([], true)
      | Except.ok sr => ((if sr then ["reminder"] else []), false)
    else ([], false)

/-- Rows a batch insert appends, in insertion order with their assigned rowids:
`insertRows s vs = s ++ insertedRows s vs` (proved below). A batch entry whose
`message_id` is already present contributes nothing. -/
def insertedRows (s : List Row) : List PinData → List Row
  | [] => []
  | v :: vs =>
    if hasId s v.mid then insertedRows s vs
    else mkRow s v :: insertedRows (s ++ [mkRow s v]) vs

/-- Store produced by reconciling the empty store with a two-item snapshot whose
larger remote id carries the later pin date. -/
def c1prior : List Row :=
  (update_database [] [⟨2, "", 50, none⟩, ⟨10, "", 100, none⟩] false).1

/-- Store after reconciling snapshot ids 5, 6 and then snapshot ids 3, 5, 6 (each
snapshot already in ascending id order, as `process_pinned_messages` delivers it):
rows sit in rowid order 5, 6, 3. -/
def c6store : List Row :=
  (update_database (update_database [] [⟨5, "", 10, none⟩, ⟨6, "", 11, none⟩] false).1
    [⟨3, "", 12, none⟩, ⟨5, "", 10, none⟩, ⟨6, "", 11, none⟩] false).1

/-- Store after inserting remote id 1 into the empty store: its row has rowid 1. -/
def c4first : List Row := (update_database [] [⟨1, "", 10, none⟩] false).1

/-- Store after a further cycle whose snapshot is remote id 2 only: id 1 is
pruned and the new row for id 2 is assigned a rowid again. -/
def c4second : List Row := (update_database c4first [⟨2, "", 20, none⟩] false).1

/-- Value domain of a Python expression compared with `is` inside
`validate_config` (src/config/config.py): either a string (what configparser
stores for every option) or one of the interned booleans. -/
inductive PyVal where
  | pystr (s : String)
  | pybool (b : Bool)
deriving DecidableEq, Repr

/-- Python's `v is True` / `v is False`: identity against the interned bool
singleton, which no string object can satisfy. -/
def pyIsBool (v : PyVal) (b : Bool) : Bool :=
  match v with
  | PyVal.pybool c => b == c
  | PyVal.pystr _ => false

/-- What `ConfigIni.__getattr__` / `DynamicConfig` yield for an option read as
`config.section.option`: the raw configparser value, which is always a string
(src/config/config.py builds `DynamicConfig(dict(value.items()))` from a
`configparser.ConfigParser`, whose option values are strings). -/
def loadedOption (raw : String) : PyVal := PyVal.pystr raw

/-- Condition of the first check in `validate_config`:
`config.alerts.alert_new_get_by_time_window is True and
config.alerts.alert_new_get_by_last_update is True`. -/
def bothSwitchesOn (tw lu : PyVal) : Bool :=
  pyIsBool tw true && pyIsBool lu true

/-- Condition of the second check in `validate_config`:
`... is False and ... is False`. -/
def bothSwitchesOff (tw lu : PyVal) : Bool :=
  pyIsBool tw false && pyIsBool lu false

/-- Configuration values `validate_config` (src/config/config.py) inspects. The
two alert switches are carried as `PyVal` because the function compares them
with `is True` / `is False`; the rest are compared as strings. -/
structure ConfigVals where
  alert_new_get_by_time_window : PyVal
  alert_new_get_by_last_update : PyVal
  api_id : String
  api_hash : String
  email_address : String
  email_password : String
  email_host : String
  email_port : String
  log_level : String
deriving DecidableEq, Repr

/-- `validate_config` (src/config/config.py), returning the message of the
ValueError it raises, or `none` when it returns normally. -/
def validate_config (c : ConfigVals) : Option String :=
  if bothSwitchesOn c.alert_new_get_by_time_window c.alert_new_get_by_last_update then
    some "alert_new_get_by_time_window and alert_new_get_by_last_update cannot both be set to 1"
  else if bothSwitchesOff c.alert_new_get_by_time_window c.alert_new_get_by_last_update then
    some "alert_new_get_by_time_window and alert_new_get_by_last_update cannot both be set to 0"
  else if c.api_id = "" ∨ c.api_id = "YOUR_API_ID" then
    some "Please set your API ID in config.ini"
  else if c.api_hash = "" ∨ c.api_hash = "YOUR_API_HASH" then
    some "Please set your API hash in config.ini"
  else if c.email_address = "" ∨ c.email_address = "YOUR_EMAIL_ADDRESS" then
    some "Please set your email address in config.ini"
  else if c.email_password = "" ∨ c.email_password = "YOUR_EMAIL_PASSWORD" then
    some "Please set your email password in config.ini"
  else if c.email_host = "" ∨ c.email_host = "YOUR_EMAIL_HOST" then
    some "Please set your email host in config.ini"
  else if c.email_port = "" ∨ c.email_port = "YOUR_EMAIL_PORT" then
    some "Please set your email port in config.ini"
  else if ¬ (c.log_level ∈ ["DEBUG", "INFO", "WARNING", "ERROR", "CRITICAL"]) then
    some "Please set a valid log level in config.ini"
  else none

/-! Helper lemmas about the store operations. -/

theorem hasId_iff (s : List Row) (i : Int) : hasId s i = true ↔ i ∈ ids s := by
  simp [hasId, ids, List.any_eq_true, List.mem_map, beq_iff_eq]

theorem mem_ids_insertOne (s : List Row) (v : PinData) (i : Int) :
    i ∈ ids (insertOne s v) ↔ i ∈ ids s ∨ i = v.mid := by
  by_cases h : hasId s v.mid
  · simp only [insertOne, if_pos h]
    constructor
    · exact Or.inl
    · rintro (hi | rfl)
      · exact hi
      · exact (hasId_iff s v.mid).1 h
  · simp only [insertOne, if_neg h, ids, List.map_append, List.map_cons, List.map_nil,
      List.mem_append, List.mem_singleton]
    exact Iff.rfl

theorem mem_ids_insertRows (vs : List PinData) (s : List Row) (i : Int) :
    i ∈ ids (insertRows s vs) ↔ i ∈ ids s ∨ i ∈ vs.map (·.mid) := by
  induction vs generalizing s with
  | nil => simp [insertRows]
  | cons v vs ih =>
    have hstep : insertRows s (v :: vs) = insertRows (insertOne s v) vs := rfl
    rw [hstep, ih, mem_ids_insertOne]
    simp only [List.map_cons, List.mem_cons]
    tauto

theorem insertOne_eq_self (s : List Row) (v : PinData) (h : v.mid ∈ ids s) :
    insertOne s v = s := by
  simp [insertOne, (hasId_iff s v.mid).2 h]

theorem insertRows_eq_self (vs : List PinData) (s : List Row)
    (h : ∀ v ∈ vs, v.mid ∈ ids s) : insertRows s vs = s := by
  induction vs with
  | nil => rfl
  | cons v vs ih =>
    have h1 : insertOne s v = s := insertOne_eq_self s v (h v (List.mem_cons_self v vs))
    have hstep : insertRows s (v :: vs) = insertRows (insertOne s v) vs := rfl
    rw [hstep, h1]
    exact ih (fun w hw => h w (List.mem_cons_of_mem v hw))

theorem remove_messages_eq_self (s : List Row) (keep : List Int)
    (h : ∀ r ∈ s, r.message_id ∈ keep) : remove_messages s keep = s :=
  List.filter_eq_self.2 (fun r hr => decide_eq_true (h r hr))

theorem mem_ids_remove (s : List Row) (keep : List Int) (i : Int) :
    i ∈ ids (remove_messages s keep) ↔ i ∈ ids s ∧ i ∈ keep := by
  simp only [ids, remove_messages, List.mem_map, List.mem_filter, decide_eq_true_eq]
  constructor
  · rintro ⟨r, ⟨hr, hk⟩, rfl⟩
    exact ⟨⟨r, hr, rfl⟩, hk⟩
  · rintro ⟨⟨r, hr, rfl⟩, hk⟩
    exact ⟨r, ⟨hr, hk⟩, rfl⟩

theorem mem_row_insertRows (vs : List PinData) (s : List Row) (r : Row)
    (h : r ∈ insertRows s vs) : r ∈ s ∨ r.message_id ∈ vs.map (·.mid) := by
  induction vs generalizing s with
  | nil => exact Or.inl h
  | cons v vs ih =>
    have hstep : insertRows s (v :: vs) = insertRows (insertOne s v) vs := rfl
    rw [hstep] at h
    rcases ih (insertOne s v) h with h1 | h1
    · by_cases hv : hasId s v.mid
      · rw [insertOne, if_pos hv] at h1
        exact Or.inl h1
      · rw [insertOne, if_neg hv] at h1
        rcases List.mem_append.1 h1 with h2 | h2
        · exact Or.inl h2
        · right
          rw [List.mem_singleton.1 h2]
          simp [mkRow]
    · right
      simp only [List.map_cons, List.mem_cons]
      exact Or.inr h1

theorem mem_ids_update (s : List Row) (pd : List PinData) (g : Bool) (i : Int) :
    i ∈ ids (update_database s pd g).1 ↔ i ∈ pd.map (·.mid) := by
  show i ∈ ids (insertRows (remove_messages s (pd.map (·.mid))) pd) ↔ _
  rw [mem_ids_insertRows, mem_ids_remove]
  tauto

theorem mem_le_maxSeq (s : List Row) (r : Row) (h : r ∈ s) : r.seq ≤ maxSeq s := by
  induction s with
  | nil => cases h
  | cons a t ih =>
    have hm : maxSeq (a :: t) = max a.seq (maxSeq t) := rfl
    rcases List.mem_cons.1 h with rfl | h1
    · rw [hm]; exact Nat.le_max_left _ _
    · rw [hm]; exact Nat.le_trans (ih h1) (Nat.le_max_right _ _)

theorem maxSeq_append_one (s : List Row) (r : Row) :
    maxSeq (s ++ [r]) = max (maxSeq s) r.seq := by
  induction s with
  | nil =>
    show max r.seq 0 = max 0 r.seq
    rw [Nat.max_comm]
  | cons a t ih =>
    show max a.seq (maxSeq (t ++ [r])) = max (max a.seq (maxSeq t)) r.seq
    rw [ih, Nat.max_assoc]

theorem insertRows_eq_append (vs : List PinData) (s : List Row) :
    insertRows s vs = s ++ insertedRows s vs := by
  induction vs generalizing s with
  | nil => simp [insertRows, insertedRows]
  | cons v vs ih =>
    have hstep : insertRows s (v :: vs) = insertRows (insertOne s v) vs := rfl
    by_cases h : hasId s v.mid
    · rw [hstep, insertOne, if_pos h, ih, insertedRows, if_pos h]
    · rw [hstep, insertOne, if_neg h, ih, insertedRows, if_neg h,
        List.append_assoc, List.singleton_append]

theorem maxSeq_lt_insertedRows (vs : List PinData) (s : List Row) (r : Row)
    (h : r ∈ insertedRows s vs) : maxSeq s < r.seq := by
  induction vs generalizing s with
  | nil => cases h
  | cons v vs ih =>
    by_cases hv : hasId s v.mid
    · rw [insertedRows, if_pos hv] at h
      exact ih s h
    · rw [insertedRows, if_neg hv] at h
      rcases List.mem_cons.1 h with rfl | h1
      · exact Nat.lt_succ_self _
      · have h2 := ih (s ++ [mkRow s v]) h1
        refine Nat.lt_of_le_of_lt ?_ h2
        rw [maxSeq_append_one]
        exact Nat.le_max_left _ _

theorem pairwise_seq_insertedRows (vs : List PinData) (s : List Row) :
    List.Pairwise (fun a b : Row => a.seq < b.seq) (insertedRows s vs) := by
  induction vs generalizing s with
  | nil => exact List.Pairwise.nil
  | cons v vs ih =>
    by_cases hv : hasId s v.mid
    · rw [insertedRows, if_pos hv]
      exact ih s
    · rw [insertedRows, if_neg hv]
      refine List.Pairwise.cons ?_ (ih (s ++ [mkRow s v]))
      intro r hr
      have h1 := maxSeq_lt_insertedRows vs (s ++ [mkRow s v]) r hr
      have h2 : maxSeq (s ++ [mkRow s v]) = (mkRow s v).seq := by
        rw [maxSeq_append_one]
        exact Nat.max_eq_right (Nat.le_succ _)
      rw [h2] at h1
      exact h1

theorem insertedRows_ids_sublist (vs : List PinData) (s : List Row) :
    ((insertedRows s vs).map (·.message_id)).Sublist (vs.map (·.mid)) := by
  induction vs generalizing s with
  | nil => exact List.Sublist.refl _
  | cons v vs ih =>
    by_cases hv : hasId s v.mid
    · rw [insertedRows, if_pos hv]
      exact (ih s).cons _
    · rw [insertedRows, if_neg hv]
      exact (ih (s ++ [mkRow s v])).cons₂ _

theorem insertedRows_id_fresh (vs : List PinData) (s : List Row) (r : Row)
    (h : r ∈ insertedRows s vs) : r.message_id ∉ ids s := by
  induction vs generalizing s with
  | nil => cases h
  | cons v vs ih =>
    by_cases hv : hasId s v.mid
    · rw [insertedRows, if_pos hv] at h
      exact ih s h
    · rw [insertedRows, if_neg hv] at h
      rcases List.mem_cons.1 h with rfl | h1
      · show (mkRow s v).message_id ∉ ids s
        have : ¬ (hasId s v.mid = true) := hv
        rw [hasId_iff] at this
        exact this
      · have h2 := ih (s ++ [mkRow s v]) h1
        intro hmem
        exact h2 (by rw [ids, List.map_append, List.mem_append]; exact Or.inl hmem)

theorem insertedRows_ids_nodup (vs : List PinData) (s : List Row) :
    ((insertedRows s vs).map (·.message_id)).Nodup := by
  induction vs generalizing s with
  | nil => exact List.nodup_nil
  | cons v vs ih =>
    by_cases hv : hasId s v.mid
    · rw [insertedRows, if_pos hv]
      exact ih s
    · rw [insertedRows, if_neg hv]
      rw [List.map_cons, List.nodup_cons]
      refine ⟨?_, ih (s ++ [mkRow s v])⟩
      intro hmem
      rcases List.mem_map.1 hmem with ⟨r, hr, hid⟩
      have h2 := insertedRows_id_fresh vs (s ++ [mkRow s v]) r hr
      apply h2
      rw [ids, List.map_append, List.mem_append]
      right
      rw [hid]
      simp [mkRow]

theorem insertedRows_ids_lt (vs : List PinData) (s : List Row)
    (h : List.Pairwise (fun a b : PinData => a.mid ≤ b.mid) vs) :
    List.Pairwise (fun a b : Int => a < b) ((insertedRows s vs).map (·.message_id)) := by
  have hle : List.Pairwise (fun a b : Int => a ≤ b) (vs.map (·.mid)) :=
    List.pairwise_map.2 h
  have h1 : List.Pairwise (fun a b : Int => a ≤ b)
      ((insertedRows s vs).map (·.message_id)) :=
    List.Pairwise.sublist (insertedRows_ids_sublist vs s) hle
  have h2 := insertedRows_ids_nodup vs s
  have h3 := h1.and h2
  exact h3.imp (fun hab => lt_of_le_of_ne hab.1 hab.2)

/-! Claim theorems. -/

/-- C1 (counterexample): the claim that `update_database` returns the maximum
pinned_at of the store as it was before any mutation is false. With a prior
store holding remote ids 2 (date 50) and 10 (date 100) and a snapshot keeping
only id 2, the prune runs first, so the value returned is 50, not the
pre-mutation maximum 100. -/
theorem watermark_not_premutation :
    (update_database c1prior [⟨2, "", 50, none⟩] true).2 = some 50 ∧
    get_last_update c1prior = some 100 ∧
    (update_database c1prior [⟨2, "", 50, none⟩] true).2 ≠ get_last_update c1prior := by
  decide

/-- C1 (amended): the watermark `update_database` returns is `MAX(date)` over
the store AFTER the prune of stale rows and before the insertion of new rows
(insert_or_ignore reads it first, then inserts); it equals the pre-mutation
maximum whenever every stored remote id is still in the snapshot, i.e. whenever
the prune deletes nothing. -/
theorem update_watermark (s : List Row) (pd : List PinData)
    (h : ∀ r ∈ s, r.message_id ∈ pd.map (·.mid)) :
    (update_database s pd true).2 = get_last_update (remove_messages s (pd.map (·.mid))) ∧
    (update_database s pd true).2 = get_last_update s := by
  have hrm : remove_messages s (pd.map (·.mid)) = s := remove_messages_eq_self s _ h
  constructor
  · rfl
  · show get_last_update (remove_messages s (pd.map (·.mid))) = get_last_update s
    rw [hrm]

/-- C1 (witness): a concrete store whose single remote id stays in the snapshot,
so the returned watermark is the pre-mutation maximum. -/
theorem update_watermark_witness :
    (update_database [⟨1, 1, "", 5, none⟩] [⟨1, "", 5, none⟩] true).2 =
      get_last_update [⟨1, 1, "", 5, none⟩] :=
  (update_watermark [⟨1, 1, "", 5, none⟩] [⟨1, "", 5, none⟩] (by decide)).2

/-- C2: the mutual-exclusivity validation in `validate_config` can never raise.
Every value `config.alerts.alert_new_get_by_time_window` or `..._last_update`
reaches it as a configparser string, and the checks compare it with `is True` /
`is False`, which no string satisfies; in particular a configuration with both
switches set to "1" (both policies enabled) passes `validate_config` without
any error, contradicting the claim that validation rejects it. -/
theorem exclusivity_check_dead (tw lu : String) :
    (bothSwitchesOn (loadedOption tw) (loadedOption lu) = false ∧
     bothSwitchesOff (loadedOption tw) (loadedOption lu) = false) ∧
    validate_config ⟨loadedOption "1", loadedOption "1", "123", "abc",
      "a@b.c", "pw", "smtp.x", "465", "INFO"⟩ = none :=
  ⟨⟨rfl, rfl⟩, by decide⟩

/-- C3: after one reconciliation the remote ids in the store are exactly the
remote ids of the snapshot, for every prior store and every snapshot; and an
empty snapshot leaves the store with zero rows. -/
theorem prune_completeness (s : List Row) (pd : List PinData) (g : Bool) :
    (∀ i : Int, i ∈ ids (update_database s pd g).1 ↔ i ∈ pd.map (·.mid)) ∧
    (update_database s [] g).1 = [] := by
  constructor
  · exact mem_ids_update s pd g
  · show insertRows (remove_messages s []) [] = []
    simp [remove_messages, insertRows]

/-- C4 (counterexample): the claim that store-assigned sequence values are never
reused across prunes is false. The row for remote id 1 receives sequence 1; a
following cycle whose snapshot is remote id 2 only prunes that row, and the row
for id 2 is assigned sequence 1 again (the schema's `id INTEGER PRIMARY KEY`
carries no AUTOINCREMENT, so the next rowid is one more than the largest rowid
still present, which can repeat an earlier value after a prune). -/
theorem sequence_reused :
    c4first = [⟨1, 1, "", 10, none⟩] ∧ c4second = [⟨1, 2, "", 20, none⟩] := by
  decide

/-- C4 (amended): within any single batch insertion, each newly inserted row's
sequence is strictly greater than every sequence present in the store at the
time of the batch, and the newly inserted rows' sequences strictly increase in
insertion order; the never-reused-across-prunes part of the claim fails. -/
theorem seq_monotone (s : List Row) (vs : List PinData) :
    (∀ r ∈ insertedRows s vs, ∀ r0 ∈ s, r0.seq < r.seq) ∧
    List.Pairwise (fun a b : Row => a.seq < b.seq) (insertedRows s vs) ∧
    insertRows s vs = s ++ insertedRows s vs := by
  refine ⟨?_, pairwise_seq_insertedRows vs s, insertRows_eq_append vs s⟩
  intro r hr r0 h0
  exact Nat.lt_of_le_of_lt (mem_le_maxSeq s r0 h0) (maxSeq_lt_insertedRows vs s r hr)

/-- C4 (witness): inserting remote ids 2 and 3 into a store whose only row has
sequence 5 assigns the first new row sequence 6, strictly above 5. -/
theorem seq_monotone_witness :
    (⟨5, 1, "", 10, none⟩ : Row).seq < (⟨6, 2, "", 20, none⟩ : Row).seq :=
  (seq_monotone [⟨5, 1, "", 10, none⟩] [⟨2, "", 20, none⟩, ⟨3, "", 30, none⟩]).1
    ⟨6, 2, "", 20, none⟩ (by decide) ⟨5, 1, "", 10, none⟩ (by decide)

/-- C5: reconciling the same snapshot twice in a row leaves the store identical
after the second run, row for row (same sequences, texts, dates, attachments),
for every prior store, every snapshot, and either setting of the last-update
flag on each run. -/
theorem reconcile_idempotent (s : List Row) (pd : List PinData) (g1 g2 : Bool) :
    (update_database (update_database s pd g1).1 pd g2).1 = (update_database s pd g1).1 := by
  have hmem : ∀ r ∈ (update_database s pd g1).1, r.message_id ∈ pd.map (·.mid) := by
    intro r hr
    exact (mem_ids_update s pd g1 r.message_id).1 (List.mem_map.2 ⟨r, hr, rfl⟩)
  show insertRows (remove_messages (update_database s pd g1).1 (pd.map (·.mid))) pd =
    (update_database s pd g1).1
  rw [remove_messages_eq_self _ _ hmem]
  refine insertRows_eq_self pd _ ?_
  intro v hv
  exact (mem_ids_update s pd g1 v.mid).2 (List.mem_map.2 ⟨v, hv, rfl⟩)

/-- C6 (counterexample): the claim that `get_recent_messages_by_date` returns
rows ordered by remote id ascending is false. Reconciling snapshots with ids
5, 6 and then 3, 5, 6 leaves the table in rowid order 5, 6, 3, and the query
(`SELECT ... WHERE date > ?` with no ORDER BY) returns the rows in that order,
which is not ascending by remote id. -/
theorem query_since_unordered :
    (get_recent_messages_by_date c6store 0).map (·.message_id) = [5, 6, 3] ∧
    ¬ List.Pairwise (fun a b : Int => a ≤ b)
      ((get_recent_messages_by_date c6store 0).map (·.message_id)) := by
  decide

/-- C6 (amended): `get_recent_messages_by_date` returns exactly the rows whose
date is strictly greater than the threshold, in the table's rowid order (it is
a filter of the table, with no ordering by remote id imposed). -/
theorem query_since_filter (s : List Row) (d : Int) :
    (∀ r : Row, r ∈ get_recent_messages_by_date s d ↔ r ∈ s ∧ d < r.date) ∧
    (get_recent_messages_by_date s d).Sublist s := by
  constructor
  · intro r
    simp [get_recent_messages_by_date, List.mem_filter]
  · exact List.filter_sublist s

/-- C7 (counterexample): the claim that `get_random_messages` returns the empty
list for every count at most 0 is false. SQLite treats a negative LIMIT as no
limit, so on a one-row store a count of -1 returns the whole table, which also
exceeds the claimed min bound. -/
theorem sample_negative_limit :
    get_random_messages [⟨1, 1, "", 10, none⟩] (-1) = [⟨1, 1, "", 10, none⟩] ∧
    get_random_messages [⟨1, 1, "", 10, none⟩] (-1) ≠ [] := by
  decide

/-- C7 (amended): for every nonnegative count, `get_random_messages` returns at
most `min count (get_count store)` rows, with pairwise distinct remote ids
whenever the store's remote ids are distinct (the UNIQUE column guarantees
this); a count of 0 yields the empty list. A negative count, however, returns
the whole table. `shuffled` is the permutation of the table that
`ORDER BY RANDOM()` produced. -/
theorem sample_bounds (s shuffled : List Row) (n : Int)
    (hperm : shuffled.Perm s) (hnodup : (s.map (·.message_id)).Nodup) (hn : 0 ≤ n) :
    (get_random_messages shuffled n).length ≤ min n.toNat (get_count s) ∧
    ((get_random_messages shuffled n).map (·.message_id)).Nodup ∧
    get_random_messages shuffled 0 = [] := by
  have hdef : get_random_messages shuffled n = shuffled.take n.toNat := by
    rw [get_random_messages, if_neg (not_lt.2 hn)]
  refine ⟨?_, ?_, rfl⟩
  · rw [hdef, get_count, ← hperm.length_eq]
    exact Nat.le_of_eq (List.length_take n.toNat shuffled)
  · rw [hdef]
    have h1 : (shuffled.map (·.message_id)).Nodup :=
      ((hperm.map (·.message_id)).nodup_iff).2 hnodup
    exact h1.sublist ((List.take_sublist n.toNat shuffled).map (·.message_id))

/-- C7 (witness): sampling one row from a two-row store through the reversing
permutation returns at most one row, with distinct remote ids. -/
theorem sample_bounds_witness :
    (get_random_messages [⟨2, 2, "", 20, none⟩, ⟨1, 1, "", 10, none⟩] 1).length ≤
      min (Int.toNat 1) (get_count [⟨1, 1, "", 10, none⟩, ⟨2, 2, "", 20, none⟩]) ∧
    ((get_random_messages [⟨2, 2, "", 20, none⟩, ⟨1, 1, "", 10, none⟩] 1).map
      (·.message_id)).Nodup ∧
    get_random_messages [⟨2, 2, "", 20, none⟩, ⟨1, 1, "", 10, none⟩] 0 = [] :=
  sample_bounds [⟨1, 1, "", 10, none⟩, ⟨2, 2, "", 20, none⟩]
    [⟨2, 2, "", 20, none⟩, ⟨1, 1, "", 10, none⟩] 1 (by decide) (by decide) (by decide)

/-- C8 (counterexample): the claim that a notifier failure for the new-items
alert still lets the reminder alert go out is false. With both alerts enabled
and both result sets non-empty, a send failure for the new-items alert raises
out of `main` (there is no try/except around `process_alerts`), so nothing is
sent at all: the reminder alert is not dispatched. -/
theorem dispatch_no_isolation :
    mainDispatchSends true true [⟨1, 1, "", 10, none⟩] [⟨2, 2, "", 20, none⟩]
      false true = ([], true) ∧
    "reminder" ∉ (mainDispatchSends true true [⟨1, 1, "", 10, none⟩]
      [⟨2, 2, "", 20, none⟩] false true).1 := by
  decide

/-- C8 (amended): when both alerts are enabled, the new-items result set is
non-empty, and its email send fails, the exception propagates out of `main`:
no alert of either type is dispatched (the already-committed reconciliation is
simply left in place; dispatch touches no store state). -/
theorem dispatch_failure_blocks_reminder (recent reminder : List Row) (okR : Bool)
    (h : recent ≠ []) :
    mainDispatchSends true true recent reminder false okR = ([], true) := by
  have hlen : 0 < recent.length := List.length_pos.2 h
  simp [mainDispatchSends, process_alerts_run, hlen]

/-- C8 (witness): a concrete failing new-items send with the reminder set empty
still raises and dispatches nothing. -/
theorem dispatch_failure_blocks_reminder_witness :
    mainDispatchSends true true [⟨1, 1, "", 10, none⟩] [] false false = ([], true) :=
  dispatch_failure_blocks_reminder [⟨1, 1, "", 10, none⟩] [] false (by decide)

/-- C9: `process_pinned_messages` sorts the pin data ascending by remote id (a
permutation of the fetched data), and therefore the rows newly inserted by the
following batch insert carry strictly increasing remote ids and strictly
increasing store sequences simultaneously: sequences are assigned in ascending
remote-id order within a cycle. -/
theorem process_sorted_insert (raw : List PinData) (s : List Row) :
    (sortPinData raw).Perm raw ∧
    List.Pairwise (fun a b : PinData => a.mid ≤ b.mid) (sortPinData raw) ∧
    List.Pairwise (fun a b : Row => a.message_id < b.message_id)
      (insertedRows s (sortPinData raw)) ∧
    List.Pairwise (fun a b : Row => a.seq < b.seq) (insertedRows s (sortPinData raw)) := by
  haveI ht : IsTotal PinData (fun a b => a.mid ≤ b.mid) :=
    ⟨fun a b => le_total a.mid b.mid⟩
  haveI htr : IsTrans PinData (fun a b => a.mid ≤ b.mid) :=
    ⟨fun a b c h1 h2 => le_trans h1 h2⟩
  have hsorted : List.Pairwise (fun a b : PinData => a.mid ≤ b.mid) (sortPinData raw) :=
    List.sorted_insertionSort _ raw
  refine ⟨List.perm_insertionSort _ raw, hsorted, ?_, pairwise_seq_insertedRows _ _⟩
  exact List.pairwise_map.1 (insertedRows_ids_lt (sortPinData raw) s hsorted)

/-- C10: with both detection-policy switches false, `get_recent_messages`
returns the empty list together with the time-window start, for every store and
every last-update value, and `process_alerts` on an empty result set sends
nothing regardless of the notifier's health. -/
theorem both_off_empty (s : List Row) (lu : Option Int) (tw : Int) (ok : Bool) :
    get_recent_messages s false false lu tw = ([], tw) ∧
    process_alerts_run [] ok = Except.ok false :=
  ⟨rfl, rfl⟩

end Tgpin
